import Mathlib

/-!
Verification of the modernCRM plugin registry and hot-reload engine.

The development shallowly embeds the module scaffolder
(`integration/plugins/module-creator.ts`) and the hot-reload /
reconciliation loop (`integration/plugins/dist/plugin-hot-reload.js`):
pure functions become Lean functions, filesystem and manifest state
becomes explicit state records, and the event emitter becomes an explicit
event list returned by each operation.  JSON serialisation
(`JSON.stringify`) is modelled by canonical rendering functions; no claim
depends on the byte-exact pretty-printed output.
-/

set_option autoImplicit false
set_option maxRecDepth 40000

namespace ModernCRM

/-- Occurrence test for a pattern inside a character list. -/
def containsList (needle : List Char) : List Char → Bool
  | [] => needle.isEmpty
  | c :: rest => needle.isPrefixOf (c :: rest) || containsList needle rest

/-- JavaScript `String.prototype.includes` (substring test); every use in
the embedded code passes a non-empty needle. -/
def strContains (s sub : String) : Bool := containsList sub.data s.data

/-- JavaScript `String.prototype.endsWith`. -/
def strEndsWith (s suffix : String) : Bool := suffix.data.isSuffixOf s.data

/-- Split a character list at every occurrence of a separator character. -/
def splitOnChar (sep : Char) : List Char → List (List Char)
  | [] => [[]]
  | c :: rest =>
    let r := splitOnChar sep rest
    if c = sep then [] :: r
    else
      match r with
      | [] => [[c]]
      | h :: t => (c :: h) :: t

/-- Node `path.basename` for POSIX-style relative paths: the last
non-empty `/`-separated segment (the whole string when there is none). -/
def basename (p : String) : String :=
  ((((splitOnChar '/' p.data).map String.mk).filter (fun seg => seg ≠ "")).getLastD p)

/-- Node `path.extname`: the suffix of the basename starting at its last
dot, empty when there is no dot or the only dot is the leading character
(dotfiles have no extension). Degenerate all-dot names are not modelled. -/
def extname (p : String) : String :=
  let b := basename p
  let parts := (splitOnChar '.' b.data).map String.mk
  if parts.length ≤ 1 then ""
  else if (parts.headD "") = "" ∧ parts.length = 2 then ""
  else "." ++ parts.getLastD ""

/-- The `ModuleFile['type']` enumeration of `module-creator.ts`. -/
inductive FileType where
  | component | config | schema | migration | test | style
  deriving DecidableEq, Repr

/-- `ModuleCreator.determineFileType` (module-creator.ts:143-159),
translated clause by clause from the source. `explicitType` is the
optional `file.type` short-circuit. -/
def determineFileType (filePath : String) (explicitType : Option FileType) : FileType :=
  match explicitType with
  | some t => t
  | none =>
    let ext := extname filePath
    let fileName := basename filePath
    if ext == ".tsx" || ext == ".jsx" then .component
    else if ext == ".ts" && !(strContains fileName ".test.") && !(strContains fileName ".spec.") then .config
    else if ext == ".sql" || strContains fileName "migration" then .migration
    else if strContains fileName ".test." || strContains fileName ".spec." then .test
    else if ext == ".css" || ext == ".scss" || ext == ".less" then .style
    else if fileName == "schema.graphql" || strContains fileName "schema" then .schema
    else .config

/-- The file-type inference rules exactly as the specification sentence
states them (claim C3): component, then test by the bare substrings
"test"/"spec", then style, then migration, then schema, else config. -/
def claimedFileType (filePath : String) : FileType :=
  let ext := extname filePath
  let fileName := basename filePath
  if ext = ".tsx" ∨ ext = ".jsx" then .component
  else if strContains fileName "test" ∨ strContains fileName "spec" then .test
  else if ext = ".css" ∨ ext = ".scss" ∨ ext = ".less" then .style
  else if strContains fileName "migration" ∨ ext = ".sql" then .migration
  else if strContains fileName "schema" then .schema
  else .config

/-- The file-type inference rules as amended: the source's actual clause
order and its dotted `.test.` / `.spec.` substrings, including the
`.ts → config` short-circuit. -/
def amendedFileType (filePath : String) : FileType :=
  let ext := extname filePath
  let fileName := basename filePath
  if ext = ".tsx" ∨ ext = ".jsx" then .component
  else if ext = ".ts" ∧ ¬ (strContains fileName ".test." = true) ∧ ¬ (strContains fileName ".spec." = true) then .config
  else if ext = ".sql" ∨ strContains fileName "migration" then .migration
  else if strContains fileName ".test." ∨ strContains fileName ".spec." then .test
  else if ext = ".css" ∨ ext = ".scss" ∨ ext = ".less" then .style
  else if fileName = "schema.graphql" ∨ strContains fileName "schema" then .schema
  else .config

/-- C3 counterexample: the inference table of the claim disagrees with the
code on the concrete filename `schema.ts` — the code returns `config`
(the `.ts` short-circuit fires first), the claim demands `schema`. -/
theorem determineFileType_ne_claimed_at_schema_ts :
    ¬ (∀ p : String, determineFileType p none = claimedFileType p) := by
  intro h
  have := h "schema.ts"
  revert this
  decide

/-- C3 (amended): for every file whose type is not explicit, the inferred
type follows the source's rule order: component for `.tsx`/`.jsx`; config
for `.ts` files whose name contains neither `.test.` nor `.spec.`;
migration for `.sql` or names containing "migration"; test for names
containing `.test.` or `.spec.`; style for `.css`/`.scss`/`.less`; schema
for `schema.graphql` or names containing "schema"; config otherwise. -/
theorem determineFileType_eq_amended (p : String) :
    determineFileType p none = amendedFileType p := by
  unfold determineFileType amendedFileType
  simp only [Bool.or_eq_true, Bool.and_eq_true, Bool.not_eq_true', beq_iff_eq,
    Bool.not_eq_true]
  split_ifs <;> simp_all

/-- Witness for `determineFileType_eq_amended` at the concrete path
`components/Widget.tsx`. -/
theorem determineFileType_eq_amended_witness :
    determineFileType "components/Widget.tsx" none = amendedFileType "components/Widget.tsx" :=
  determineFileType_eq_amended "components/Widget.tsx"

/-! ## Content processing (`processFileContent`, module-creator.ts:164-191) -/

/-- One step of the global regex `/from ['"]\.\.?\//g` used by
`processFileContent`: try to match the relative-import pattern at the head
of the character list; on success return the remainder after the match. -/
def relImportMatch : List Char → Option (List Char)
  | 'f' :: 'r' :: 'o' :: 'm' :: ' ' :: q :: rest =>
    if q = '\'' ∨ q = '"' then
      match rest with
      | '.' :: '.' :: '/' :: r => some r
      | '.' :: '/' :: r => some r
      | _ => none
    else none
  | _ => none

/-- The replacement text of the import-fixing rewrite
(module-creator.ts:168-171). -/
def relImportReplacement : List Char := "from '../../../".data

/-- Left-to-right, non-overlapping global replacement, as JavaScript
`String.prototype.replace` with a `g`-flagged regex. Fuel-indexed so the
kernel can evaluate it; every step consumes at least one character, so the
input length is enough fuel. -/
def replaceRelImportsAux : Nat → List Char → List Char
  | 0, l => l
  | _ + 1, [] => []
  | fuel + 1, c :: rest =>
    match relImportMatch (c :: rest) with
    | some r => relImportReplacement ++ replaceRelImportsAux fuel r
    | none => c :: replaceRelImportsAux fuel rest

/-- The import-fixing rewrite of `processFileContent`. -/
def replaceRelImports (l : List Char) : List Char :=
  replaceRelImportsAux l.length l

/-- Whether the relative-import pattern occurs anywhere in the text. -/
def hasRelImport : List Char → Bool
  | [] => false
  | c :: rest => (relImportMatch (c :: rest)).isSome || hasRelImport rest

/-- The provenance header prepended by `processFileContent`
(module-creator.ts:174-183); the generation timestamp is a parameter of
the embedding. -/
def moduleHeader (name featureType timestamp : String) : String :=
  "/**\n * Generated Module: " ++ name ++
  "\n * Type: " ++ featureType ++
  "\n * Generated: " ++ timestamp ++
  "\n * \n * This file was automatically generated by the Modern CRM AI system.\n * Modifications may be overwritten on regeneration.\n */\n\n"

/-- Whether a path names a TypeScript/JavaScript source file, the
condition of module-creator.ts:186. -/
def isSourceLikePath (filePath : String) : Bool :=
  strEndsWith filePath ".ts" || strEndsWith filePath ".tsx" ||
  strEndsWith filePath ".js" || strEndsWith filePath ".jsx"

/-- `ModuleCreator.processFileContent` (module-creator.ts:164-191):
rewrite relative-import prefixes globally, then prepend the provenance
header to TypeScript/JavaScript files. -/
def processFileContent (content filePath : String)
    (name featureType timestamp : String) : String :=
  let processed := String.mk (replaceRelImports content.data)
  let header := moduleHeader name featureType timestamp
  if isSourceLikePath filePath then header ++ processed else processed

/-- If a step of `relImportMatch` fails at every position, the global
replacement leaves the text unchanged. -/
theorem replaceRelImportsAux_eq_self (fuel : Nat) :
    ∀ l : List Char, hasRelImport l = false → replaceRelImportsAux fuel l = l := by
  induction fuel with
  | zero => intro l _; rfl
  | succ fuel ih =>
    intro l hno
    cases l with
    | nil => rfl
    | cons c rest =>
      rw [hasRelImport, Bool.or_eq_false_iff] at hno
      obtain ⟨h1, h2⟩ := hno
      rw [replaceRelImportsAux]
      cases hm : relImportMatch (c :: rest) with
      | some r => rw [hm] at h1; simp at h1
      | none =>
        show c :: replaceRelImportsAux fuel rest = c :: rest
        rw [ih rest h2]

/-- C1 counterexample: the claim — a source-like file's processed content
is the supplied content with only the provenance header prepended — fails
at the concrete file `index.ts` with content
`import x from './helper';`: the rewrite of module-creator.ts:168-171
additionally replaces the relative-import prefix with `from '../../../`. -/
theorem processFileContent_not_header_only :
    ¬ (∀ content filePath name ft ts : String,
        isSourceLikePath filePath = true →
        processFileContent content filePath name ft ts
          = moduleHeader name ft ts ++ content) := by
  intro h
  have hx := h "import x from './helper';" "index.ts" "m" "widget" "t" (by decide)
  revert hx
  decide

/-- C1 (amended): for every source-like file (`.ts`, `.tsx`, `.js`,
`.jsx`) whose supplied content contains no relative-import occurrence
(`from` followed by a quote and `./` or `../`), the processed content is
exactly the provenance header followed by the unaltered supplied content;
contents with such occurrences additionally have those prefixes rewritten
to `from '../../../`. -/
theorem processFileContent_header_only_of_no_relImport
    (content filePath name ft ts : String)
    (hsrc : isSourceLikePath filePath = true)
    (hno : hasRelImport content.data = false) :
    processFileContent content filePath name ft ts
      = moduleHeader name ft ts ++ content := by
  unfold processFileContent replaceRelImports
  rw [if_pos hsrc, replaceRelImportsAux_eq_self _ _ hno]

/-- Witness for `processFileContent_header_only_of_no_relImport` at a
concrete header-free content. -/
theorem processFileContent_header_only_witness :
    processFileContent "export const x = 1;" "index.ts" "m" "widget" "t"
      = moduleHeader "m" "widget" "t" ++ "export const x = 1;" :=
  processFileContent_header_only_of_no_relImport
    "export const x = 1;" "index.ts" "m" "widget" "t" (by decide) (by decide)

/-! ## Scaffolder data model (module-creator.ts:10-38 and payload shape) -/

/-- JavaScript `String.prototype.startsWith`. -/
def strStartsWith (s pre : String) : Bool := pre.data.isPrefixOf s.data

/-- Replace the first occurrence of a non-empty pattern, as JavaScript
`String.prototype.replace` with a string pattern. -/
def replaceFirstAux (needle repl : List Char) : List Char → List Char
  | [] => []
  | c :: rest =>
    if needle.isPrefixOf (c :: rest) then repl ++ (c :: rest).drop needle.length
    else c :: replaceFirstAux needle repl rest

/-- String-level first-occurrence replacement. -/
def replaceFirst (s needle repl : String) : String :=
  String.mk (replaceFirstAux needle.data repl.data s.data)

/-- Node `path.basename(p, path.extname(p))`: the basename with its
extension stripped. -/
def basenameNoExt (p : String) : String :=
  let b := basename p
  let e := extname p
  if e ≠ "" ∧ strEndsWith b e = true then String.mk (b.data.take (b.data.length - e.data.length))
  else b

/-- `ModuleConfig` (module-creator.ts:10-20). -/
structure ModuleConfig where
  name : String
  slug : String
  featureType : String
  description : String
  version : String
  author : Option String
  dependencies : List String
  routes : List String
  integrationPoints : List String
  deriving DecidableEq, Repr

/-- `ModuleFile` (module-creator.ts:22-26). -/
structure ModuleFile where
  path : String
  content : String
  type : FileType
  deriving DecidableEq, Repr

/-- One raw file record of the generation payload (`moduleData.files`).
Missing JS fields are the empty string / `none`, matching their falsiness
in the source's checks. -/
structure RawFile where
  path : String
  content : String
  type : Option FileType
  deriving DecidableEq, Repr

/-- The generation payload consumed by `createModule` (`moduleData`);
the `metadata` bag's optional fields are inlined. -/
structure ModulePayload where
  name : String
  slug : String
  feature_type : String
  description : Option String
  dependencies : Option (List String)
  routes : Option (List String)
  integration_points : Option (List String)
  files : List RawFile
  deriving DecidableEq, Repr

/-- A component entry of the plugin manifest
(module-creator.ts:350-356); `ctype` is the constant
`'react-component'` field. -/
structure ComponentRef where
  name : String
  path : String
  ctype : String
  deriving DecidableEq, Repr

/-- A route entry of the plugin manifest (module-creator.ts:359-363). -/
structure RouteRef where
  path : String
  component : String
  title : String
  deriving DecidableEq, Repr

/-- The `plugin.json` document built by `createPluginManifest`
(module-creator.ts:338-384); constant fields are carried verbatim. -/
structure PluginManifest where
  id : String
  name : String
  version : String
  description : String
  mtype : String
  featureType : String
  author : Option String
  main : String
  components : List ComponentRef
  routes : List RouteRef
  integrationEntities : List String
  permissions : List String
  hooks : List String
  dependencies : List String
  generated : Bool
  aiGenerated : Bool
  generator : String
  createdAt : String
  tags : List String
  deriving DecidableEq, Repr

/-- `GeneratedModule.metadata` (module-creator.ts:33-37); `status` ranges
over the source's string literals. -/
structure ModuleMetadata where
  createdAt : String
  generatedBy : String
  status : String
  deriving DecidableEq, Repr

/-- `GeneratedModule` (module-creator.ts:28-38). -/
structure GeneratedModule where
  id : String
  config : ModuleConfig
  files : List ModuleFile
  pluginManifest : PluginManifest
  metadata : ModuleMetadata
  deriving DecidableEq, Repr

/-! ## Scaffolder file pipeline (module-creator.ts:112-384) -/

/-- The per-file half of `processModuleFiles` (module-creator.ts:112-132):
validate, infer the type, and process the content of each supplied file in
order, failing at the first file with a missing/empty path or content. -/
def processSuppliedFiles (config : ModuleConfig) (timestamp : String) :
    List RawFile → Except String (List ModuleFile)
  | [] => .ok []
  | f :: rest =>
    if f.path = "" ∨ f.content = "" then
      .error "Invalid file structure: missing path or content"
    else
      match processSuppliedFiles config timestamp rest with
      | .error e => .error e
      | .ok tail =>
        .ok ({ path := f.path
               content := processFileContent f.content f.path config.name config.featureType timestamp
               type := determineFileType f.path f.type } :: tail)

/-- `generateIndexFile` (module-creator.ts:230-252). -/
def generateIndexFile (files : List ModuleFile) (config : ModuleConfig) : String :=
  let componentFiles := files.filter (fun f => f.type == .component)
  let exports := String.intercalate "\n" (componentFiles.map (fun f =>
    "export \x7b default as " ++ basenameNoExt f.path ++ " \x7d from './" ++
      replaceFirst (replaceFirst f.path ".tsx" "") ".ts" "" ++ "';"))
  "/**\n * Generated Module: " ++ config.name ++
  "\n * Main export file for all module components and utilities\n */\n\n" ++
  exports ++
  "\n\nexport const moduleInfo = \x7b\n  name: '" ++ config.name ++
  "',\n  slug: '" ++ config.slug ++
  "',\n  version: '" ++ config.version ++
  "',\n  featureType: '" ++ config.featureType ++
  "',\n  description: '" ++ config.description ++ "'\n\x7d;\n"

/-- Canonical rendering of a JSON string (escape handling is not
modelled; no claim inspects rendered documents character by character). -/
def jstr (s : String) : String := "\"" ++ s ++ "\""

/-- Canonical rendering of a JSON object from rendered fields, standing
in for `JSON.stringify`'s pretty-printed output. -/
def jobj (fields : List (String × String)) : String :=
  "\x7b" ++ String.intercalate "," (fields.map (fun kv => jstr kv.1 ++ ":" ++ kv.2)) ++ "\x7d"

/-- Canonical rendering of a JSON array from rendered elements. -/
def jarr (xs : List String) : String :=
  "[" ++ String.intercalate "," xs ++ "]"

/-- `generatePackageJson` (module-creator.ts:257-282). -/
def generatePackageJson (config : ModuleConfig) : String :=
  jobj [
    ("name", jstr ("@modern-crm/plugin-" ++ config.slug)),
    ("version", jstr config.version),
    ("description", jstr config.description),
    ("main", jstr "index.ts"),
    ("author", jstr (config.author.getD "AI Generator")),
    ("license", jstr "MIT"),
    ("dependencies", jobj (config.dependencies.map (fun d => (d, jstr "latest")))),
    ("peerDependencies", jobj [("react", jstr "^18.0.0"), ("typescript", jstr "^5.0.0")]),
    ("keywords", jarr [jstr "modern-crm", jstr "plugin", jstr config.featureType, jstr "ai-generated"])]

/-- `generateReadme` (module-creator.ts:287-333). -/
def generateReadme (config : ModuleConfig) (timestamp : String) : String :=
  "# " ++ config.name ++ "\n\n" ++ config.description ++
  "\n\n## Overview\n\nThis module was automatically generated by the Modern CRM AI system. It provides " ++
  config.featureType ++
  " functionality integrated with Twenty CRM and Webstudio.\n\n## Features\n\n- **Type**: " ++
  config.featureType ++ "\n- **Version**: " ++ config.version ++
  "\n- **Integration Points**: " ++ String.intercalate ", " config.integrationPoints ++
  "\n- **Routes**: " ++ String.intercalate ", " config.routes ++
  "\n\n## Dependencies\n\n" ++
  String.intercalate "\n" (config.dependencies.map (fun d => "- " ++ d)) ++
  "\n\n## Usage\n\nThis module is automatically loaded by the Modern CRM plugin system. No manual installation is required.\n\n## Generated Files\n\n- Components: React components for UI functionality\n- Services: Backend services and API integrations\n- Types: TypeScript type definitions\n- Tests: Unit tests for validation\n- Styles: CSS styling with design tokens\n\n## Modification\n\n⚠️ **Warning**: This module was automatically generated. Manual modifications may be overwritten when the module is regenerated.\n\nFor customizations, consider:\n1. Creating a custom plugin based on this generated code\n2. Using the AI prompt system to regenerate with modifications\n3. Extending the module through the plugin API\n\n---\n\nGenerated on: " ++
  timestamp ++ "\nGenerator: Modern CRM AI System (Gemini 2.5 Flash)\n"

/-- `addRequiredFiles` (module-creator.ts:196-225): synthesize `index.ts`,
`package.json` and `README.md` when no supplied path already ends in
them; the presence checks all use the path list captured before any
injection, and the index file is generated from that same list. -/
def addRequiredFiles (files : List ModuleFile) (config : ModuleConfig) (timestamp : String) :
    List ModuleFile :=
  let existingPaths := files.map (fun f => f.path)
  let hasIndex := existingPaths.any (fun p => strEndsWith p "index.ts" || strEndsWith p "index.tsx")
  let hasPackage := existingPaths.any (fun p => strEndsWith p "package.json")
  let hasReadme := existingPaths.any (fun p => strEndsWith p "README.md")
  let files1 := if hasIndex then files
    else files ++ [{ path := "index.ts", content := generateIndexFile files config, type := .config }]
  let files2 := if hasPackage then files1
    else files1 ++ [{ path := "package.json", content := generatePackageJson config, type := .config }]
  if hasReadme then files2
  else files2 ++ [{ path := "README.md", content := generateReadme config timestamp, type := .config }]

/-- `processModuleFiles` (module-creator.ts:112-138): per-file processing
followed by required-file injection. -/
def processModuleFiles (files : List RawFile) (config : ModuleConfig) (timestamp : String) :
    Except String (List ModuleFile) :=
  match processSuppliedFiles config timestamp files with
  | .error e => .error e
  | .ok processed => .ok (addRequiredFiles processed config timestamp)

/-- `createPluginManifest` (module-creator.ts:338-384). -/
def createPluginManifest (config : ModuleConfig) (files : List ModuleFile)
    (timestamp : String) : PluginManifest :=
  { id := config.slug
    name := config.name
    version := config.version
    description := config.description
    mtype := "generated-module"
    featureType := config.featureType
    author := config.author
    main := "index.ts"
    components := (files.filter (fun f => f.type == .component)).map (fun f =>
      { name := basenameNoExt f.path, path := f.path, ctype := "react-component" })
    routes := config.routes.map (fun r =>
      { path := r, component := config.slug, title := config.name })
    integrationEntities := config.integrationPoints
    permissions := ["read", "write"]
    hooks := ["onCreate", "onUpdate"]
    dependencies := config.dependencies
    generated := true
    aiGenerated := true
    generator := "gemini-2.5-flash"
    createdAt := timestamp
    tags := [config.featureType, "ai-generated", "plugin"] }

/-! ## Plugins manifest (`plugins.json`) and the scaffolder's state -/

/-- The `metadata` block the scaffolder writes into a manifest entry
(module-creator.ts:445-450). -/
structure PluginMeta where
  createdAt : String
  generatedBy : String
  status : String
  featureType : String
  routes : List String
  integrationPoints : List String
  deriving DecidableEq, Repr

/-- One entry of the `plugins` array of `plugins.json`. Fields other than
`id` and `name` may be absent in a hand-edited manifest, so they are
optional; the scaffolder always writes all of them. -/
structure PluginEntry where
  id : String
  name : String
  version : Option String
  entryType : Option String
  path : Option String
  enabled : Option Bool
  metadata : Option PluginMeta
  deriving DecidableEq, Repr

/-- The parsed `plugins.json` document. (The top-level `metadata` block
written by `createEmptyConfig` is opaque to every operation and is not
modelled.) -/
structure PluginsConfig where
  plugins : List PluginEntry
  deriving DecidableEq, Repr

/-- Association-list lookup (first match), the reading half of both the
directory model and the JS `Map`. -/
def assocLookup {α : Type} : List (String × α) → String → Option α
  | [], _ => none
  | (k', v) :: rest, k => if k' = k then some v else assocLookup rest k

/-- Association-list update: replace the binding in place or append,
as JS `Map.set`. -/
def assocSet {α : Type} : List (String × α) → String → α → List (String × α)
  | [], k, v => [(k, v)]
  | (k', v') :: rest, k, v =>
    if k' = k then (k, v) :: rest else (k', v') :: assocSet rest k v

/-- On-disk content of one file of a module directory. The two JSON
documents the scaffolder writes are kept structurally; their rendered
text is produced on demand by `FileContent.asText`, standing in for
`JSON.stringify`/`JSON.parse` round-tripping. -/
inductive FileContent where
  | text (s : String)
  | manifestDoc (m : PluginManifest)
  | metadataDoc (id : String) (config : ModuleConfig) (metadata : ModuleMetadata)
  deriving DecidableEq, Repr

/-- Rendered text of the `plugin.json` document. -/
def manifestText (m : PluginManifest) : String :=
  jobj [
    ("id", jstr m.id), ("name", jstr m.name), ("version", jstr m.version),
    ("description", jstr m.description), ("type", jstr m.mtype),
    ("featureType", jstr m.featureType), ("author", jstr (m.author.getD "")),
    ("main", jstr m.main),
    ("components", jarr (m.components.map (fun c =>
      jobj [("name", jstr c.name), ("path", jstr c.path), ("type", jstr c.ctype)]))),
    ("routes", jarr (m.routes.map (fun r =>
      jobj [("path", jstr r.path), ("component", jstr r.component), ("title", jstr r.title)]))),
    ("integration", jobj [("entities", jarr (m.integrationEntities.map jstr)),
      ("permissions", jarr (m.permissions.map jstr)), ("hooks", jarr (m.hooks.map jstr))]),
    ("dependencies", jarr (m.dependencies.map jstr)),
    ("metadata", jobj [("generator", jstr m.generator), ("createdAt", jstr m.createdAt),
      ("tags", jarr (m.tags.map jstr))])]

/-- Rendered text of the `module-metadata.json` document. -/
def metadataText (id : String) (config : ModuleConfig) (md : ModuleMetadata) : String :=
  jobj [
    ("id", jstr id),
    ("config", jobj [("name", jstr config.name), ("slug", jstr config.slug),
      ("featureType", jstr config.featureType), ("description", jstr config.description),
      ("version", jstr config.version), ("author", jstr (config.author.getD "")),
      ("dependencies", jarr (config.dependencies.map jstr)),
      ("routes", jarr (config.routes.map jstr)),
      ("integrationPoints", jarr (config.integrationPoints.map jstr))]),
    ("metadata", jobj [("createdAt", jstr md.createdAt),
      ("generatedBy", jstr md.generatedBy), ("status", jstr md.status)])]

/-- The raw text a reader of the directory sees for an entry. -/
def FileContent.asText : FileContent → String
  | .text s => s
  | .manifestDoc m => manifestText m
  | .metadataDoc id config md => metadataText id config md

/-- `fs.writeFile` within one directory listing: overwrite or create. -/
def fsWrite (dir : List (String × FileContent)) (p : String) (c : FileContent) :
    List (String × FileContent) :=
  (dir.filter (fun e => e.1 != p)) ++ [(p, c)]

/-- The scaffolder's world: the generated-modules tree (slug ↦ directory
listing) and the parsed plugins manifest (`none` when `plugins.json` is
absent). -/
structure CreatorState where
  generatedModules : List (String × List (String × FileContent))
  pluginsManifest : Option PluginsConfig
  deriving DecidableEq, Repr

/-- `writeModuleToFileSystem` (module-creator.ts:389-420): write every
module file at its relative path into the (possibly pre-existing) slug
directory, then the `plugin.json` and `module-metadata.json` documents. -/
def writeModuleToFileSystem (st : CreatorState) (m : GeneratedModule) : CreatorState :=
  let dir0 := (assocLookup st.generatedModules m.config.slug).getD []
  let dir1 := m.files.foldl (fun d f => fsWrite d f.path (.text f.content)) dir0
  let dir2 := fsWrite dir1 "plugin.json" (.manifestDoc m.pluginManifest)
  let dir3 := fsWrite dir2 "module-metadata.json" (.metadataDoc m.id m.config m.metadata)
  { st with generatedModules := assocSet st.generatedModules m.config.slug dir3 }

/-- The manifest entry `updatePluginsRegistry` builds for a new module
(module-creator.ts:438-451). -/
def newPluginEntry (m : GeneratedModule) : PluginEntry :=
  { id := m.config.slug
    name := m.config.name
    version := some m.config.version
    entryType := some "generated-module"
    path := some ("./generated/" ++ m.config.slug)
    enabled := some true
    metadata := some { createdAt := m.metadata.createdAt
                       generatedBy := m.metadata.generatedBy
                       status := m.metadata.status
                       featureType := m.config.featureType
                       routes := m.config.routes
                       integrationPoints := m.config.integrationPoints } }

/-- `updatePluginsRegistry` (module-creator.ts:425-467): an unreadable or
absent manifest starts from `\x7bplugins: []\x7d`; any entry with the module's
slug is removed and the fresh entry appended. -/
def updatePluginsRegistry (manifest : Option PluginsConfig) (m : GeneratedModule) :
    PluginsConfig :=
  let cfg := manifest.getD { plugins := [] }
  { plugins := (cfg.plugins.filter (fun p => p.id != m.config.slug)) ++ [newPluginEntry m] }

/-- `removeFromPluginsRegistry` (module-creator.ts:585-600) on a readable
manifest. -/
def removeFromPluginsRegistry (cfg : PluginsConfig) (slug : String) : PluginsConfig :=
  { plugins := cfg.plugins.filter (fun p => p.id != slug) }

/-- The in-place enabled-flag update of `toggleModuleStatus`
(module-creator.ts:611-617): `find` mutates the first matching entry. -/
def setEnabledFirst : List PluginEntry → String → Bool → List PluginEntry
  | [], _, _ => []
  | e :: rest, slug, b =>
    if e.id = slug then { e with enabled := some b } :: rest
    else e :: setEnabledFirst rest slug b

/-- `toggleModuleStatus` (module-creator.ts:605-628): `false` when the
manifest is unreadable or the slug is absent; otherwise flip the entry's
enabled flag and persist. -/
def toggleModuleStatus (st : CreatorState) (slug : String) (enabled : Bool) :
    Bool × CreatorState :=
  match st.pluginsManifest with
  | none => (false, st)
  | some cfg =>
    if cfg.plugins.any (fun p => p.id == slug) then
      (true, { st with pluginsManifest := some { plugins := setEnabledFirst cfg.plugins slug enabled } })
    else (false, st)

/-- `createModule` (module-creator.ts:54-107). The UUID and the ISO
timestamp are parameters of the embedding (their generation is
nondeterministic I/O). The state is returned alongside the result; on a
validation error it is unchanged, as the source throws before any
write. -/
def createModule (st : CreatorState) (payload : ModulePayload)
    (moduleId timestamp : String) : Except String GeneratedModule × CreatorState :=
  let moduleConfig : ModuleConfig :=
    { name := payload.name
      slug := payload.slug
      featureType := payload.feature_type
      description := payload.description.getD "AI-generated module"
      version := "1.0.0"
      author := some "AI Generator"
      dependencies := payload.dependencies.getD []
      routes := payload.routes.getD []
      integrationPoints := payload.integration_points.getD [] }
  match processModuleFiles payload.files moduleConfig timestamp with
  | .error e => (.error ("Module creation failed: " ++ e), st)
  | .ok processedFiles =>
    let generatedModule : GeneratedModule :=
      { id := moduleId
        config := moduleConfig
        files := processedFiles
        pluginManifest := createPluginManifest moduleConfig processedFiles timestamp
        metadata := { createdAt := timestamp, generatedBy := "AI-Gemini-2.5-Flash", status := "created" } }
    let st1 := writeModuleToFileSystem st generatedModule
    let st2 := { st1 with
      pluginsManifest := some (updatePluginsRegistry st1.pluginsManifest generatedModule) }
    (.ok generatedModule, st2)

/-- `loadModuleFiles` (module-creator.ts:523-551): every regular file of
the directory except dotfile basenames and `module-metadata.json`, with
types re-inferred from the path alone. -/
def loadModuleFiles (dir : List (String × FileContent)) : List ModuleFile :=
  (dir.filter (fun e =>
      !(strStartsWith (basename e.1) ".") && basename e.1 != "module-metadata.json")).map
    (fun e => { path := e.1, content := e.2.asText, type := determineFileType e.1 none })

/-- `getModule` (module-creator.ts:633-660): `none` when the directory,
its metadata document, or its plugin manifest cannot be read. -/
def getModule (st : CreatorState) (slug : String) : Option GeneratedModule :=
  match assocLookup st.generatedModules slug with
  | none => none
  | some dir =>
    match assocLookup dir "module-metadata.json", assocLookup dir "plugin.json" with
    | some (.metadataDoc id config md), some (.manifestDoc pm) =>
      some { id := id, config := config, files := loadModuleFiles dir,
             pluginManifest := pm, metadata := md }
    | _, _ => none

/-- `deleteModule` (module-creator.ts:556-580) with
`removeFromPluginsRegistry`: `false` without changes when the module
directory does not exist; otherwise remove the directory and filter the
manifest entry out (a missing manifest is tolerated, the helper swallows
its errors). -/
def deleteModule (st : CreatorState) (slug : String) : Bool × CreatorState :=
  match assocLookup st.generatedModules slug with
  | none => (false, st)
  | some _ =>
    (true,
     { generatedModules := st.generatedModules.filter (fun e => e.1 != slug)
       pluginsManifest := st.pluginsManifest.map (fun cfg => removeFromPluginsRegistry cfg slug) })

/-! ## Association-list and manifest lemmas -/

theorem assocLookup_filter_ne_self {α : Type} (l : List (String × α)) (k : String) :
    assocLookup (l.filter (fun e => e.1 != k)) k = none := by
  induction l with
  | nil => rfl
  | cons e rest ih =>
    by_cases he : e.1 = k
    · simp [List.filter_cons, he, ih]
    · simp [List.filter_cons, he, assocLookup, ih]

/-- The id list of a manifest's plugin entries. -/
def entryIds (l : List PluginEntry) : List String := l.map (fun p => p.id)

theorem setEnabledFirst_ids (l : List PluginEntry) (slug : String) (b : Bool) :
    entryIds (setEnabledFirst l slug b) = entryIds l := by
  simp only [entryIds]
  induction l with
  | nil => rfl
  | cons e rest ih =>
    simp only [setEnabledFirst]
    split
    · simp
    · simp only [List.map_cons, ih]

theorem entryIds_filter_nodup (l : List PluginEntry) (pred : PluginEntry → Bool)
    (h : (entryIds l).Nodup) : (entryIds (l.filter pred)).Nodup :=
  (List.Sublist.map (fun p : PluginEntry => p.id) (List.filter_sublist l)).nodup h

theorem not_mem_entryIds_filter_ne (l : List PluginEntry) (s : String) :
    s ∉ entryIds (l.filter (fun p => p.id != s)) := by
  intro hmem
  simp only [entryIds, List.mem_map, List.mem_filter] at hmem
  obtain ⟨p, ⟨-, hpred⟩, hid⟩ := hmem
  rw [hid] at hpred
  simp at hpred

/-! ## C5: malformed file payloads fail the whole operation -/

theorem processSuppliedFiles_error (config : ModuleConfig) (timestamp : String) :
    ∀ files : List RawFile, (∃ f ∈ files, f.path = "" ∨ f.content = "") →
      ∃ e, processSuppliedFiles config timestamp files = .error e := by
  intro files
  induction files with
  | nil => rintro ⟨f, hf, -⟩; cases hf
  | cons g rest ih =>
    rintro ⟨f, hf, hbad⟩
    by_cases hg : g.path = "" ∨ g.content = ""
    · exact ⟨_, by rw [processSuppliedFiles, if_pos hg]⟩
    · rcases List.mem_cons.mp hf with rfl | hmem
      · exact absurd hbad hg
      · obtain ⟨e, he⟩ := ih ⟨f, hmem, hbad⟩
        exact ⟨e, by rw [processSuppliedFiles, if_neg hg, he]⟩

theorem processModuleFiles_error (config : ModuleConfig) (timestamp : String)
    (files : List RawFile) (h : ∃ f ∈ files, f.path = "" ∨ f.content = "") :
    ∃ e, processModuleFiles files config timestamp = .error e := by
  obtain ⟨e, he⟩ := processSuppliedFiles_error config timestamp files h
  exact ⟨e, by rw [processModuleFiles, he]⟩

/-- C5: a payload containing a file with a missing or empty path or
content fails the whole `createModule` operation with an error; no module
file is written and the plugins manifest is unchanged (the returned state
is exactly the input state). -/
theorem createModule_rejects_malformed_file
    (st : CreatorState) (payload : ModulePayload) (moduleId timestamp : String)
    (f : RawFile) (hf : f ∈ payload.files) (hbad : f.path = "" ∨ f.content = "") :
    (∃ e, (createModule st payload moduleId timestamp).1 = .error e) ∧
    (createModule st payload moduleId timestamp).2 = st := by
  obtain ⟨e, he⟩ := processModuleFiles_error
    { name := payload.name, slug := payload.slug, featureType := payload.feature_type,
      description := payload.description.getD "AI-generated module", version := "1.0.0",
      author := some "AI Generator", dependencies := payload.dependencies.getD [],
      routes := payload.routes.getD [], integrationPoints := payload.integration_points.getD [] }
    timestamp payload.files ⟨f, hf, hbad⟩
  simp only [createModule]
  rw [he]
  exact ⟨⟨_, rfl⟩, rfl⟩

/-- A payload whose only file is missing its path. -/
def malformedPayload : ModulePayload :=
  { name := "m", slug := "s", feature_type := "w", description := none,
    dependencies := none, routes := none, integration_points := none,
    files := [{ path := "", content := "x", type := none }] }

/-- Witness for `createModule_rejects_malformed_file` on the empty state
and a one-file payload with an empty path. -/
theorem createModule_rejects_malformed_file_witness :
    (∃ e, (createModule ⟨[], none⟩ malformedPayload "id-0" "t0").1 = .error e) ∧
    (createModule ⟨[], none⟩ malformedPayload "id-0" "t0").2 = ⟨[], none⟩ :=
  createModule_rejects_malformed_file ⟨[], none⟩ malformedPayload "id-0" "t0"
    { path := "", content := "x", type := none } (by decide) (by decide)

/-! ## C7: manifest id uniqueness is preserved -/

/-- C7: starting from a manifest whose plugin ids are pairwise distinct,
registration (`updatePluginsRegistry`, the upsert), removal
(`removeFromPluginsRegistry`) and toggling (`setEnabledFirst`, the entry
update of `toggleModuleStatus`) all preserve distinctness, and after an
upsert exactly one manifest entry bears the module's slug. -/
theorem manifest_ids_nodup_preserved
    (cfg : PluginsConfig) (m : GeneratedModule) (slug : String) (b : Bool)
    (h : (entryIds cfg.plugins).Nodup) :
    (entryIds (updatePluginsRegistry (some cfg) m).plugins).Nodup ∧
    (entryIds (removeFromPluginsRegistry cfg slug).plugins).Nodup ∧
    (entryIds (setEnabledFirst cfg.plugins slug b)).Nodup ∧
    (entryIds (updatePluginsRegistry (some cfg) m).plugins).count m.config.slug = 1 := by
  have hfilter := entryIds_filter_nodup cfg.plugins (fun p => p.id != m.config.slug) h
  have hnotmem := not_mem_entryIds_filter_ne cfg.plugins m.config.slug
  have hids : entryIds (updatePluginsRegistry (some cfg) m).plugins
      = entryIds (cfg.plugins.filter (fun p => p.id != m.config.slug)) ++ [m.config.slug] := by
    simp [updatePluginsRegistry, entryIds, newPluginEntry]
  refine ⟨?_, ?_, ?_, ?_⟩
  · rw [hids]
    simp only [List.nodup_append, List.nodup_cons, List.nodup_nil, List.disjoint_singleton]
    exact ⟨hfilter, by simp, by simpa using hnotmem⟩
  · exact entryIds_filter_nodup cfg.plugins _ h
  · rw [setEnabledFirst_ids]; exact h
  · rw [hids, List.count_append]
    rw [List.count_eq_zero.mpr hnotmem]
    simp

/-- A two-entry manifest with distinct ids. -/
def sampleManifest : PluginsConfig :=
  { plugins := [
      { id := "a", name := "A", version := some "1.0.0", entryType := some "generated-module",
        path := some "./generated/a", enabled := some true, metadata := none },
      { id := "b", name := "B", version := none, entryType := none,
        path := none, enabled := none, metadata := none }] }

/-- A minimal generated module with slug `a`, as produced for a payload
with no files. -/
def sampleModule : GeneratedModule :=
  { id := "id-1"
    config := { name := "A", slug := "a", featureType := "widget",
                description := "AI-generated module", version := "1.0.0",
                author := some "AI Generator", dependencies := [], routes := [],
                integrationPoints := [] }
    files := []
    pluginManifest := createPluginManifest
      { name := "A", slug := "a", featureType := "widget",
        description := "AI-generated module", version := "1.0.0",
        author := some "AI Generator", dependencies := [], routes := [],
        integrationPoints := [] } [] "t0"
    metadata := { createdAt := "t0", generatedBy := "AI-Gemini-2.5-Flash", status := "created" } }

/-- Witness for `manifest_ids_nodup_preserved` on a concrete two-entry
manifest, re-registering the already-present slug `a`. -/
theorem manifest_ids_nodup_preserved_witness :
    (entryIds (updatePluginsRegistry (some sampleManifest) sampleModule).plugins).Nodup ∧
    (entryIds (removeFromPluginsRegistry sampleManifest "b").plugins).Nodup ∧
    (entryIds (setEnabledFirst sampleManifest.plugins "b" false)).Nodup ∧
    (entryIds (updatePluginsRegistry (some sampleManifest) sampleModule).plugins).count
      sampleModule.config.slug = 1 :=
  manifest_ids_nodup_preserved sampleManifest sampleModule "b" false (by decide)

/-! ## C9: deletion is terminal -/

/-- C9: whenever `deleteModule` reports `true`, the module directory is
gone — a subsequent `getModule` on the slug is not-found — and no
manifest entry bears the slug; and when the module directory did not
exist, `deleteModule` reports `false` and changes nothing. -/
theorem deleteModule_terminal (st : CreatorState) (slug : String) :
    ((deleteModule st slug).1 = true →
      getModule (deleteModule st slug).2 slug = none ∧
      ∀ cfg, (deleteModule st slug).2.pluginsManifest = some cfg →
        ∀ p ∈ cfg.plugins, p.id ≠ slug) ∧
    (assocLookup st.generatedModules slug = none →
      deleteModule st slug = (false, st)) := by
  constructor
  · intro htrue
    cases hl : assocLookup st.generatedModules slug with
    | none =>
      unfold deleteModule at htrue
      rw [hl] at htrue
      simp at htrue
    | some dir =>
      have hgm : (deleteModule st slug).2.generatedModules
          = st.generatedModules.filter (fun e => e.1 != slug) := by
        unfold deleteModule; rw [hl]
      have hpm : (deleteModule st slug).2.pluginsManifest
          = st.pluginsManifest.map (fun cfg => removeFromPluginsRegistry cfg slug) := by
        unfold deleteModule; rw [hl]
      constructor
      · have hnone : assocLookup (deleteModule st slug).2.generatedModules slug = none := by
          rw [hgm]; exact assocLookup_filter_ne_self _ _
        simp [getModule, hnone]
      · intro cfg hcfg p hp
        rw [hpm] at hcfg
        cases hm : st.pluginsManifest with
        | none => rw [hm] at hcfg; simp at hcfg
        | some c =>
          rw [hm] at hcfg
          simp only [Option.map_some', Option.some_inj] at hcfg
          rw [← hcfg] at hp
          simp only [removeFromPluginsRegistry, List.mem_filter] at hp
          intro hid
          rw [hid] at hp
          simp at hp
  · intro hnone
    unfold deleteModule
    rw [hnone]

/-- A state holding one scaffolded module `a` and its manifest entry. -/
def sampleCreatorState : CreatorState :=
  (createModule ⟨[], none⟩
    { name := "A", slug := "a", feature_type := "widget", description := none,
      dependencies := none, routes := none, integration_points := none, files := [] }
    "id-1" "t0").2

/-- Witness for `deleteModule_terminal`: deleting the module `a` from a
state that holds it makes `getModule` not-found. -/
theorem deleteModule_terminal_witness :
    getModule (deleteModule sampleCreatorState "a").2 "a" = none :=
  ((deleteModule_terminal sampleCreatorState "a").1 (by decide)).1

/-! ## C2: create/get round-trip -/

/-- A file compared "by path and content". -/
def pathContent (f : ModuleFile) : String × String := (f.path, f.content)

/-- The round-trip property exactly as claim C2 states it, as an
executable check: when `createModule` succeeds, `getModule` on the slug
must return a module with the scaffolded config and, compared by path and
content, exactly the scaffolded file set. -/
def roundTripExact (st : CreatorState) (payload : ModulePayload)
    (moduleId timestamp : String) : Bool :=
  match createModule st payload moduleId timestamp with
  | (.ok gm, st') =>
    match getModule st' payload.slug with
    | some loaded =>
      (loaded.config == gm.config) &&
      (loaded.files.map pathContent).isPerm (gm.files.map pathContent)
    | none => false
  | (.error _, _) => true

/-- C2 counterexample: on the empty state and a valid zero-file payload
with slug `s`, `createModule` succeeds, but `getModule` returns one file
more than was scaffolded — the written `plugin.json` manifest document is
picked up by `loadModuleFiles` — so the loaded file set does not equal
the scaffolded one. -/
theorem roundTrip_not_exact :
    ¬ (∀ (st : CreatorState) (payload : ModulePayload) (moduleId timestamp : String),
        roundTripExact st payload moduleId timestamp = true) := by
  intro h
  have hx := h ⟨[], none⟩
    { name := "m", slug := "s", feature_type := "w", description := none,
      dependencies := none, routes := none, integration_points := none, files := [] }
    "id-0" "t0"
  revert hx
  decide

theorem assocLookup_append_left {α : Type} (l1 l2 : List (String × α)) (k : String)
    (h : ∀ e ∈ l1, e.1 ≠ k) : assocLookup (l1 ++ l2) k = assocLookup l2 k := by
  induction l1 with
  | nil => simp
  | cons e rest ih =>
    simp only [List.cons_append, assocLookup]
    rw [if_neg (h e (by simp))]
    exact ih (fun e' he' => h e' (by simp [he']))

theorem assocLookup_assocSet_self {α : Type} (l : List (String × α)) (k : String) (v : α) :
    assocLookup (assocSet l k v) k = some v := by
  induction l with
  | nil => simp [assocSet, assocLookup]
  | cons e rest ih =>
    by_cases he : e.1 = k
    · simp [assocSet, he, assocLookup]
    · simp [assocSet, he, assocLookup, ih]

theorem fsWrite_fresh {dir : List (String × FileContent)} {p : String} {c : FileContent}
    (h : ∀ e ∈ dir, e.1 ≠ p) : fsWrite dir p c = dir ++ [(p, c)] := by
  unfold fsWrite
  congr 1
  apply List.filter_eq_self.mpr
  intro e he
  simpa using h e he

theorem foldl_fsWrite_text (files : List ModuleFile) :
    ∀ dir : List (String × FileContent),
      (files.map (fun f => f.path)).Nodup →
      (∀ f ∈ files, ∀ e ∈ dir, e.1 ≠ f.path) →
      files.foldl (fun d f => fsWrite d f.path (.text f.content)) dir
        = dir ++ files.map (fun f => (f.path, FileContent.text f.content)) := by
  induction files with
  | nil => intro dir _ _; simp
  | cons f rest ih =>
    intro dir hnodup hfresh
    have hnd : f.path ∉ rest.map (fun f => f.path) ∧ (rest.map (fun f => f.path)).Nodup := by
      simpa using hnodup
    simp only [List.foldl_cons]
    rw [fsWrite_fresh (fun e he => hfresh f (by simp) e he)]
    rw [ih (dir ++ [(f.path, FileContent.text f.content)]) hnd.2 ?_]
    · simp
    · intro g hg e he
      rcases List.mem_append.mp he with hin | hsing
      · exact hfresh g (List.mem_cons_of_mem _ hg) e hin
      · have heq : e = (f.path, FileContent.text f.content) := by simpa using hsing
        rw [heq]
        intro hc
        simp only at hc
        exact hnd.1 (by rw [hc]; exact List.mem_map_of_mem (fun f => f.path) hg)

theorem loadModuleFiles_append (d1 d2 : List (String × FileContent)) :
    loadModuleFiles (d1 ++ d2) = loadModuleFiles d1 ++ loadModuleFiles d2 := by
  simp [loadModuleFiles, List.filter_append]

theorem loadModuleFiles_text_map (files : List ModuleFile)
    (hclean : ∀ f ∈ files, strStartsWith (basename f.path) "." = false ∧
       basename f.path ≠ "module-metadata.json") :
    loadModuleFiles (files.map (fun f => (f.path, FileContent.text f.content)))
      = files.map (fun f =>
          { path := f.path, content := f.content, type := determineFileType f.path none }) := by
  induction files with
  | nil => rfl
  | cons f rest ih =>
    have hc := hclean f (by simp)
    have hpred : (!(strStartsWith (basename f.path) ".")
        && (basename f.path != "module-metadata.json")) = true := by
      rw [hc.1]
      simpa using hc.2
    have ih' := ih (fun g hg => hclean g (List.mem_cons_of_mem _ hg))
    simp only [loadModuleFiles, List.map_cons, List.filter_cons] at ih' ⊢
    rw [hpred]
    simp only [if_true, List.map_cons]
    rw [ih']
    rfl

theorem writeModule_dir (st : CreatorState) (m : GeneratedModule)
    (hfresh : assocLookup st.generatedModules m.config.slug = none)
    (hnodup : (m.files.map (fun f => f.path)).Nodup)
    (hclean : ∀ f ∈ m.files,
      basename f.path ≠ "module-metadata.json" ∧ f.path ≠ "plugin.json") :
    (writeModuleToFileSystem st m).generatedModules
      = assocSet st.generatedModules m.config.slug
          (m.files.map (fun f => (f.path, FileContent.text f.content))
            ++ [("plugin.json", FileContent.manifestDoc m.pluginManifest),
                ("module-metadata.json", FileContent.metadataDoc m.id m.config m.metadata)]) := by
  have h1 : ∀ e ∈ m.files.map (fun f => (f.path, FileContent.text f.content)),
      e.1 ≠ "plugin.json" := by
    intro e he
    simp only [List.mem_map] at he
    obtain ⟨f, hf, rfl⟩ := he
    exact fun hc => (hclean f hf).2 hc
  have h2 : ∀ e ∈ m.files.map (fun f => (f.path, FileContent.text f.content))
        ++ [("plugin.json", FileContent.manifestDoc m.pluginManifest)],
      e.1 ≠ "module-metadata.json" := by
    intro e he
    rcases List.mem_append.mp he with hin | hp
    · simp only [List.mem_map] at hin
      obtain ⟨f, hf, rfl⟩ := hin
      intro hc
      simp only at hc
      exact (hclean f hf).1 (by rw [hc]; decide)
    · have heq : e = ("plugin.json", FileContent.manifestDoc m.pluginManifest) := by
        simpa using hp
      rw [heq]
      intro hx
      simp only at hx
      exact absurd hx (by decide)
  unfold writeModuleToFileSystem
  rw [hfresh]
  simp only [Option.getD_none]
  rw [foldl_fsWrite_text m.files [] hnodup (by intro f _ e he; cases he)]
  simp only [List.nil_append]
  rw [fsWrite_fresh h1]
  rw [fsWrite_fresh h2]
  simp

theorem getModule_after_write (st : CreatorState) (m : GeneratedModule)
    (hfresh : assocLookup st.generatedModules m.config.slug = none)
    (hnodup : (m.files.map (fun f => f.path)).Nodup)
    (hclean : ∀ f ∈ m.files,
      strStartsWith (basename f.path) "." = false ∧
      basename f.path ≠ "module-metadata.json" ∧ f.path ≠ "plugin.json")
    (st2 : CreatorState)
    (hst2 : st2.generatedModules = (writeModuleToFileSystem st m).generatedModules) :
    ∃ loaded, getModule st2 m.config.slug = some loaded ∧
      loaded.config = m.config ∧
      loaded.files.map pathContent
        = m.files.map pathContent ++ [("plugin.json", manifestText m.pluginManifest)] := by
  have hdir := writeModule_dir st m hfresh hnodup
    (fun f hf => ⟨(hclean f hf).2.1, (hclean f hf).2.2⟩)
  set DIR := m.files.map (fun f => (f.path, FileContent.text f.content))
      ++ [("plugin.json", FileContent.manifestDoc m.pluginManifest),
          ("module-metadata.json", FileContent.metadataDoc m.id m.config m.metadata)] with hDIR
  have hlook : assocLookup st2.generatedModules m.config.slug = some DIR := by
    rw [hst2, hdir]
    exact assocLookup_assocSet_self _ _ _
  have hmeta : assocLookup DIR "module-metadata.json"
      = some (FileContent.metadataDoc m.id m.config m.metadata) := by
    rw [hDIR]
    rw [assocLookup_append_left _ _ _ ?_]
    · simp [assocLookup]
    · intro e he
      simp only [List.mem_map] at he
      obtain ⟨f, hf, rfl⟩ := he
      simp only
      intro hc
      exact (hclean f hf).2.1 (by rw [hc]; rfl)
  have hplugin : assocLookup DIR "plugin.json"
      = some (FileContent.manifestDoc m.pluginManifest) := by
    rw [hDIR]
    rw [assocLookup_append_left _ _ _ ?_]
    · simp [assocLookup]
    · intro e he
      simp only [List.mem_map] at he
      obtain ⟨f, hf, rfl⟩ := he
      exact fun hc => (hclean f hf).2.2 hc
  refine ⟨{ id := m.id, config := m.config, files := loadModuleFiles DIR,
            pluginManifest := m.pluginManifest, metadata := m.metadata }, ?_, rfl, ?_⟩
  · have hred : getModule st2 m.config.slug
        = match assocLookup DIR "module-metadata.json", assocLookup DIR "plugin.json" with
          | some (.metadataDoc id config md), some (.manifestDoc pm) =>
            some { id := id, config := config, files := loadModuleFiles DIR,
                   pluginManifest := pm, metadata := md }
          | _, _ => none := by
      unfold getModule
      rw [hlook]
    rw [hred, hmeta, hplugin]
  · show (loadModuleFiles DIR).map pathContent = _
    rw [hDIR]
    rw [show m.files.map (fun f => (f.path, FileContent.text f.content))
          ++ [("plugin.json", FileContent.manifestDoc m.pluginManifest),
              ("module-metadata.json", FileContent.metadataDoc m.id m.config m.metadata)]
        = m.files.map (fun f => (f.path, FileContent.text f.content))
          ++ ([("plugin.json", FileContent.manifestDoc m.pluginManifest)]
              ++ [("module-metadata.json", FileContent.metadataDoc m.id m.config m.metadata)])
        from by simp]
    rw [loadModuleFiles_append, loadModuleFiles_append]
    rw [loadModuleFiles_text_map m.files (fun f hf => ⟨(hclean f hf).1, (hclean f hf).2.1⟩)]
    rw [show loadModuleFiles [("plugin.json", FileContent.manifestDoc m.pluginManifest)]
        = [{ path := "plugin.json", content := manifestText m.pluginManifest,
             type := FileType.config }] from rfl]
    rw [show loadModuleFiles
          [("module-metadata.json", FileContent.metadataDoc m.id m.config m.metadata)]
        = [] from rfl]
    simp [pathContent, List.map_map, Function.comp]

/-- C2 (amended): for every successful `createModule` on a slug with no
pre-existing module directory, where the scaffolded files have pairwise
distinct paths, no dotfile basenames, no basename `module-metadata.json`
and no path `plugin.json`, `getModule(slug)` returns a module with the
scaffolded config and, compared by path and content, exactly the
scaffolded file set plus one extra entry: the written `plugin.json`
manifest document. -/
theorem createModule_getModule_roundtrip
    (st : CreatorState) (payload : ModulePayload) (moduleId timestamp : String)
    (gm : GeneratedModule) (st' : CreatorState)
    (hrun : createModule st payload moduleId timestamp = (.ok gm, st'))
    (hfresh : assocLookup st.generatedModules payload.slug = none)
    (hnodup : (gm.files.map (fun f => f.path)).Nodup)
    (hclean : ∀ f ∈ gm.files,
      strStartsWith (basename f.path) "." = false ∧
      basename f.path ≠ "module-metadata.json" ∧ f.path ≠ "plugin.json") :
    ∃ loaded, getModule st' payload.slug = some loaded ∧
      loaded.config = gm.config ∧
      loaded.files.map pathContent
        = gm.files.map pathContent ++ [("plugin.json", manifestText gm.pluginManifest)] := by
  simp only [createModule] at hrun
  split at hrun
  · simp at hrun
  · rename_i pf heq
    simp only [Prod.mk.injEq, Except.ok.injEq] at hrun
    obtain ⟨hgm, hst⟩ := hrun
    have hslug : gm.config.slug = payload.slug := by rw [← hgm]
    have hst2 : st'.generatedModules = (writeModuleToFileSystem st gm).generatedModules := by
      rw [← hst, ← hgm]
    rw [← hslug]
    exact getModule_after_write st gm (by rw [hslug]; exact hfresh) hnodup hclean st' hst2

/-- The zero-file payload used by the round-trip witness. -/
def rtPayload : ModulePayload :=
  { name := "m", slug := "s", feature_type := "w", description := none,
    dependencies := none, routes := none, integration_points := none, files := [] }

/-- The module scaffolded by the round-trip witness run. -/
def rtModule : GeneratedModule :=
  ((createModule ⟨[], none⟩ rtPayload "id-0" "t0").1.toOption).getD sampleModule

/-- The state after the round-trip witness run. -/
def rtState : CreatorState := (createModule ⟨[], none⟩ rtPayload "id-0" "t0").2

/-- Witness for `createModule_getModule_roundtrip` on the empty state and
the zero-file payload. -/
theorem createModule_getModule_roundtrip_witness :
    ∃ loaded, getModule rtState rtPayload.slug = some loaded ∧
      loaded.config = rtModule.config ∧
      loaded.files.map pathContent
        = rtModule.files.map pathContent
          ++ [("plugin.json", manifestText rtModule.pluginManifest)] :=
  createModule_getModule_roundtrip ⟨[], none⟩ rtPayload "id-0" "t0" rtModule rtState
    rfl rfl (by decide) (by decide)

/-! ## Hot-reload engine (plugin-hot-reload.js) -/

/-- The in-memory runtime record held in `loadedPlugins`. -/
structure PluginInfo where
  id : String
  name : String
  version : String
  infoType : String
  path : Option String
  enabled : Bool
  metadata : Option PluginMeta
  deriving DecidableEq, Repr

/-- `loadPlugin`'s construction of the runtime record
(plugin-hot-reload.js:66-84): default `version`/`type`, `enabled` is
"not explicitly false", then downgraded when the descriptor's path does
not resolve to an existing directory. `fs` is the set of existing
directories, path resolution abstracted to membership. -/
def mkPluginInfo (e : PluginEntry) (fs : List String) : PluginInfo :=
  let enabled0 := e.enabled != some false
  { id := e.id
    name := e.name
    version := e.version.getD "1.0.0"
    infoType := e.entryType.getD "unknown"
    path := e.path
    enabled := match e.path with
      | some p => if fs.contains p then enabled0 else false
      | none => enabled0
    metadata := e.metadata }

/-- One emitted lifecycle event. `added` is the `plugin-loaded` event
(`type: 'added'`); `updated`/`reloaded` carry the table lookup the source
performs at emission time. -/
inductive ReloadEvent where
  | added (p : PluginInfo)
  | updated (p : Option PluginInfo)
  | removed (p : PluginInfo)
  | toggled (enabled : Bool) (p : PluginInfo)
  | reloaded (p : Option PluginInfo)
  deriving DecidableEq, Repr

/-- `loadPlugin` (plugin-hot-reload.js:64-97): store the record in the
table and emit one `added` (`plugin-loaded`) event iff its resolved
enabled flag is true. -/
def loadPlugin (table : List (String × PluginInfo)) (fs : List String) (e : PluginEntry) :
    List (String × PluginInfo) × List ReloadEvent :=
  let info := mkPluginInfo e fs
  (assocSet table info.id info, if info.enabled then [.added info] else [])

/-- The per-descriptor body of `handleConfigChange`'s first loop
(plugin-hot-reload.js:145-166): a new id is loaded fresh; a known id is
compared on version, resolved enabled flag and metadata, and reloaded
(emitting `plugin-updated` after any `added` from `loadPlugin`) when any
of them differs. -/
def reconcileOne (fs : List String) (acc : List (String × PluginInfo) × List ReloadEvent)
    (e : PluginEntry) : List (String × PluginInfo) × List ReloadEvent :=
  match assocLookup acc.1 e.id with
  | none =>
    let (t, evs) := loadPlugin acc.1 fs e
    (t, acc.2 ++ evs)
  | some existing =>
    let hasChanges := (some existing.version != e.version)
      || (existing.enabled != (e.enabled != some false))
      || (existing.metadata != e.metadata)
    if hasChanges then
      let (t, evs) := loadPlugin acc.1 fs e
      (t, acc.2 ++ evs ++ [.updated (assocLookup t e.id)])
    else acc

/-- `handleConfigChange` (plugin-hot-reload.js:138-182) on a readable
manifest: the first loop walks the manifest's descriptors (additions and
updates against the live table); the second loop walks the snapshot of
the previous table and removes every id absent from the new manifest,
emitting `plugin-removed` with the snapshot's record. -/
def handleConfigChange (table : List (String × PluginInfo)) (fs : List String)
    (cfg : PluginsConfig) : List (String × PluginInfo) × List ReloadEvent :=
  let firstPass := cfg.plugins.foldl (reconcileOne fs) (table, [])
  let currentIds := cfg.plugins.map (fun e => e.id)
  let removedList := table.filter (fun kv => !currentIds.contains kv.1)
  let finalTable := removedList.foldl (fun t kv => t.filter (fun e => e.1 != kv.1)) firstPass.1
  (finalTable, firstPass.2 ++ removedList.map (fun kv => ReloadEvent.removed kv.2))

/-- The hot-reload engine's world: the runtime table, the parsed manifest
(`none` when absent), and the set of existing directories. -/
structure HotReloadState where
  table : List (String × PluginInfo)
  manifest : Option PluginsConfig
  fs : List String
  deriving DecidableEq, Repr

/-- The loop body of `loadAllPlugins`: run `loadPlugin` against the
accumulated table and append its events. -/
def loadStep (fs : List String) (acc : List (String × PluginInfo) × List ReloadEvent)
    (e : PluginEntry) : List (String × PluginInfo) × List ReloadEvent :=
  let r := loadPlugin acc.1 fs e
  (r.1, acc.2 ++ r.2)

/-- `loadAllPlugins` (plugin-hot-reload.js:49-63) as run by `start` on a
readable manifest: clear the table, then load every descriptor in order.
An unreadable manifest is caught before the clear and triggers
`createEmptyConfig`, leaving the table as it was. -/
def startLoad (st : HotReloadState) : HotReloadState × List ReloadEvent :=
  match st.manifest with
  | some cfg =>
    let r := cfg.plugins.foldl (loadStep st.fs)
      (([] : List (String × PluginInfo)), ([] : List ReloadEvent))
    ({ st with table := r.1 }, r.2)
  | none =>
    ({ st with manifest := some { plugins := [] } }, [])

/-- `togglePlugin` (plugin-hot-reload.js:237-264). The in-memory record
is mutated before the manifest read, and a manifest without the id is
simply not written back. -/
def togglePlugin (st : HotReloadState) (pluginId : String) (enabled : Bool) :
    Bool × HotReloadState × List ReloadEvent :=
  match assocLookup st.table pluginId with
  | none => (false, st, [])
  | some plugin =>
    let plugin1 := { plugin with enabled := enabled }
    let table1 := assocSet st.table pluginId plugin1
    match st.manifest with
    | none => (false, { st with table := table1 }, [])
    | some cfg =>
      let manifest1 := if cfg.plugins.any (fun p => p.id == pluginId)
        then some { plugins := setEnabledFirst cfg.plugins pluginId enabled }
        else some cfg
      (true, { st with table := table1, manifest := manifest1 },
       [.toggled enabled plugin1])

/-- `reloadPlugin` (plugin-hot-reload.js:265-287). -/
def reloadPlugin (st : HotReloadState) (pluginId : String) :
    Bool × HotReloadState × List ReloadEvent :=
  match st.manifest with
  | none => (false, st, [])
  | some cfg =>
    match cfg.plugins.find? (fun p => p.id == pluginId) with
    | none => (false, st, [])
    | some entry =>
      let r := loadPlugin st.table st.fs entry
      (true, { st with table := r.1 }, r.2 ++ [.reloaded (assocLookup r.1 pluginId)])

/-! ## C8 and C10: toggle/reload behaviour -/

/-- C8: toggling or reloading an id that is in neither the plugin table
nor the manifest returns the failure indicator `false`, emits zero
`ReloadEvent`s, and leaves both the table and the persisted manifest
unchanged. -/
theorem unknown_id_no_side_effects
    (st : HotReloadState) (pluginId : String) (enabled : Bool)
    (htable : assocLookup st.table pluginId = none)
    (hmanifest : ∀ cfg, st.manifest = some cfg → ∀ p ∈ cfg.plugins, p.id ≠ pluginId) :
    togglePlugin st pluginId enabled = (false, st, []) ∧
    reloadPlugin st pluginId = (false, st, []) := by
  constructor
  · unfold togglePlugin
    rw [htable]
  · unfold reloadPlugin
    cases hm : st.manifest with
    | none => rfl
    | some cfg =>
      have hfind : cfg.plugins.find? (fun p => p.id == pluginId) = none := by
        apply List.find?_eq_none.mpr
        intro p hp
        simpa using hmanifest cfg hm p hp
      dsimp only
      rw [hfind]

/-- Witness for `unknown_id_no_side_effects` on an empty engine and the
unknown id `x`. -/
theorem unknown_id_no_side_effects_witness :
    togglePlugin ⟨[], some { plugins := [] }, []⟩ "x" true
      = (false, ⟨[], some { plugins := [] }, []⟩, []) ∧
    reloadPlugin ⟨[], some { plugins := [] }, []⟩ "x"
      = (false, ⟨[], some { plugins := [] }, []⟩, []) :=
  unknown_id_no_side_effects ⟨[], some { plugins := [] }, []⟩ "x" true rfl
    (by rintro cfg hc p hp; cases hc; cases hp)

/-- C10: toggling an id that is in the in-memory table but has no entry
in the manifest's plugin list still returns `true`, updates the in-memory
enabled flag and emits one `plugin-toggled` event, while the manifest
document is not written — reported toggle success does not imply the
change was persisted. -/
theorem togglePlugin_success_without_persistence
    (st : HotReloadState) (pluginId : String) (enabled : Bool)
    (plugin : PluginInfo) (cfg : PluginsConfig)
    (htable : assocLookup st.table pluginId = some plugin)
    (hm : st.manifest = some cfg)
    (habsent : ∀ p ∈ cfg.plugins, p.id ≠ pluginId) :
    togglePlugin st pluginId enabled
      = (true,
         { st with table := assocSet st.table pluginId { plugin with enabled := enabled } },
         [.toggled enabled { plugin with enabled := enabled }]) := by
  have hany : cfg.plugins.any (fun p => p.id == pluginId) = false := by
    apply List.any_eq_false.mpr
    intro p hp
    simpa using habsent p hp
  unfold togglePlugin
  rw [htable, hm]
  dsimp only
  rw [hany]
  simp

/-- The runtime record used by the hot-reload witnesses. -/
def samplePluginInfo : PluginInfo :=
  { id := "a", name := "A", version := "1.0.0", infoType := "generated-module",
    path := none, enabled := true, metadata := none }

/-- Witness for `togglePlugin_success_without_persistence`: id `a` is in
the table of a concrete state whose manifest list is empty. -/
theorem togglePlugin_success_without_persistence_witness :
    togglePlugin ⟨[("a", samplePluginInfo)], some { plugins := [] }, []⟩ "a" false
      = (true,
         { table := assocSet [("a", samplePluginInfo)] "a" { samplePluginInfo with enabled := false },
           manifest := some { plugins := [] }, fs := [] },
         [.toggled false { samplePluginInfo with enabled := false }]) :=
  togglePlugin_success_without_persistence
    ⟨[("a", samplePluginInfo)], some { plugins := [] }, []⟩ "a" false
    samplePluginInfo { plugins := [] } (by decide) rfl (by rintro p hp; cases hp)

/-! ## C6: startup degradation and event discipline -/

theorem assocLookup_assocSet_ne {α : Type} (l : List (String × α)) (k k' : String) (v : α)
    (h : k' ≠ k) : assocLookup (assocSet l k' v) k = assocLookup l k := by
  induction l with
  | nil => simp [assocSet, assocLookup, h]
  | cons e rest ih =>
    by_cases he : e.1 = k'
    · simp [assocSet, he, assocLookup, h]
    · simp [assocSet, he, assocLookup, ih]

theorem loadStep_events (fs : List String) :
    ∀ (entries : List PluginEntry) (t : List (String × PluginInfo)) (evs : List ReloadEvent),
      (entries.foldl (loadStep fs) (t, evs)).2
        = evs ++ (entries.filter (fun e => (mkPluginInfo e fs).enabled)).map
            (fun e => ReloadEvent.added (mkPluginInfo e fs)) := by
  intro entries
  induction entries with
  | nil => intro t evs; simp
  | cons e rest ih =>
    intro t evs
    simp only [List.foldl_cons, List.filter_cons]
    cases hen : (mkPluginInfo e fs).enabled with
    | true =>
      rw [show loadStep fs (t, evs) e
          = (assocSet t (mkPluginInfo e fs).id (mkPluginInfo e fs),
             evs ++ [ReloadEvent.added (mkPluginInfo e fs)]) from by
        simp [loadStep, loadPlugin, hen]]
      rw [ih]
      simp [hen]
    | false =>
      rw [show loadStep fs (t, evs) e
          = (assocSet t (mkPluginInfo e fs).id (mkPluginInfo e fs), evs ++ []) from by
        simp [loadStep, loadPlugin, hen]]
      rw [ih]
      simp [hen]

theorem loadStep_table (fs : List String) :
    ∀ (entries : List PluginEntry) (t : List (String × PluginInfo)) (evs : List ReloadEvent),
      (entries.foldl (loadStep fs) (t, evs)).1
        = entries.foldl (fun t e => assocSet t e.id (mkPluginInfo e fs)) t := by
  intro entries
  induction entries with
  | nil => intro t evs; rfl
  | cons e rest ih =>
    intro t evs
    simp only [List.foldl_cons]
    rw [show loadStep fs (t, evs) e
        = (assocSet t e.id (mkPluginInfo e fs), evs ++ (loadPlugin t fs e).2) from by
      simp [loadStep, loadPlugin, mkPluginInfo]]
    exact ih _ _

theorem assocLookup_set_foldl_of_not_mem (fs : List String) :
    ∀ (entries : List PluginEntry) (t : List (String × PluginInfo)) (k : String),
      (∀ e ∈ entries, e.id ≠ k) →
      assocLookup (entries.foldl (fun t e => assocSet t e.id (mkPluginInfo e fs)) t) k
        = assocLookup t k := by
  intro entries
  induction entries with
  | nil => intro t k _; rfl
  | cons e rest ih =>
    intro t k hne
    simp only [List.foldl_cons]
    rw [ih _ k (fun g hg => hne g (List.mem_cons_of_mem _ hg))]
    exact assocLookup_assocSet_ne _ _ _ _ (hne e (by simp))

theorem lookup_after_loadAll (fs : List String) :
    ∀ (entries : List PluginEntry) (t : List (String × PluginInfo)) (b : PluginEntry),
      b ∈ entries → (entryIds entries).Nodup →
      assocLookup (entries.foldl (fun t e => assocSet t e.id (mkPluginInfo e fs)) t) b.id
        = some (mkPluginInfo b fs) := by
  intro entries
  induction entries with
  | nil => intro t b hb; cases hb
  | cons e rest ih =>
    intro t b hb hnodup
    have hnd : e.id ∉ rest.map (fun p => p.id) ∧ (rest.map (fun p => p.id)).Nodup := by
      simpa [entryIds] using hnodup
    simp only [List.foldl_cons]
    rcases List.mem_cons.mp hb with rfl | hmem
    · rw [assocLookup_set_foldl_of_not_mem fs rest _ b.id ?_]
      · exact assocLookup_assocSet_self _ _ _
      · intro g hg hc
        exact hnd.1 (hc ▸ List.mem_map_of_mem (fun p => p.id) hg)
    · exact ih _ b hmem hnd.2

/-- C6: during `start` on a readable manifest with pairwise-distinct ids,
the manifest is not modified; the emitted `added` (`plugin-loaded`)
events are exactly those for the descriptors whose resolved enabled flag
is true, in manifest order; and every descriptor whose `path` is set but
does not resolve to an existing directory is still recorded in the table,
with its in-memory `enabled` flag forced to false. -/
theorem startLoad_degrades_missing_paths
    (st : HotReloadState) (cfg : PluginsConfig)
    (hm : st.manifest = some cfg)
    (hnodup : (entryIds cfg.plugins).Nodup) :
    (startLoad st).1.manifest = st.manifest ∧
    (startLoad st).2 = (cfg.plugins.filter (fun e => (mkPluginInfo e st.fs).enabled)).map
        (fun e => ReloadEvent.added (mkPluginInfo e st.fs)) ∧
    ∀ e ∈ cfg.plugins, ∀ p, e.path = some p → st.fs.contains p = false →
      assocLookup (startLoad st).1.table e.id = some (mkPluginInfo e st.fs) ∧
      (mkPluginInfo e st.fs).enabled = false := by
  have hload : startLoad st
      = ({ st with table := (cfg.plugins.foldl (loadStep st.fs) ([], [])).1 },
         (cfg.plugins.foldl (loadStep st.fs) ([], [])).2) := by
    unfold startLoad
    rw [hm]
  refine ⟨?_, ?_, ?_⟩
  · rw [hload]
  · rw [hload]
    exact loadStep_events st.fs cfg.plugins [] []
  · intro e he p hp hmiss
    constructor
    · rw [hload]
      show assocLookup (cfg.plugins.foldl (loadStep st.fs) ([], [])).1 e.id = _
      rw [loadStep_table]
      exact lookup_after_loadAll st.fs cfg.plugins [] e he hnodup
    · simp only [mkPluginInfo, hp]
      rw [hmiss]
      simp

/-- A manifest entry whose path points at a missing directory. -/
def ghostEntry : PluginEntry :=
  { id := "g", name := "G", version := some "1.0.0", entryType := some "generated-module",
    path := some "./generated/ghost", enabled := some true, metadata := none }

/-- A manifest entry with no path. -/
def plainEntry : PluginEntry :=
  { id := "p", name := "P", version := some "1.0.0", entryType := some "generated-module",
    path := none, enabled := some true, metadata := none }

/-- Witness for `startLoad_degrades_missing_paths`: a two-entry manifest
whose first descriptor's path is missing from the filesystem. -/
theorem startLoad_degrades_missing_paths_witness :
    (startLoad ⟨[], some { plugins := [ghostEntry, plainEntry] }, []⟩).1.manifest
        = (⟨[], some { plugins := [ghostEntry, plainEntry] }, []⟩ : HotReloadState).manifest ∧
    (startLoad ⟨[], some { plugins := [ghostEntry, plainEntry] }, []⟩).2
      = (([ghostEntry, plainEntry].filter (fun e => (mkPluginInfo e []).enabled)).map
          (fun e => ReloadEvent.added (mkPluginInfo e []))) ∧
    ∀ e ∈ [ghostEntry, plainEntry], ∀ p, e.path = some p → List.contains [] p = false →
      assocLookup (startLoad ⟨[], some { plugins := [ghostEntry, plainEntry] }, []⟩).1.table e.id
          = some (mkPluginInfo e []) ∧
      (mkPluginInfo e []).enabled = false :=
  startLoad_degrades_missing_paths ⟨[], some { plugins := [ghostEntry, plainEntry] }, []⟩
    { plugins := [ghostEntry, plainEntry] } rfl (by decide)

/-! ## C4: reconciliation ordering -/

theorem reconcileOne_events (fs : List String)
    (acc : List (String × PluginInfo) × List ReloadEvent) (e : PluginEntry) :
    ∃ d, (reconcileOne fs acc e).2 = acc.2 ++ d := by
  unfold reconcileOne
  cases assocLookup acc.1 e.id with
  | none => exact ⟨_, rfl⟩
  | some existing =>
    dsimp only
    split
    · exact ⟨(loadPlugin acc.1 fs e).2
        ++ [ReloadEvent.updated (assocLookup (loadPlugin acc.1 fs e).1 e.id)],
        by simp [List.append_assoc]⟩
    · exact ⟨[], by simp⟩

theorem reconcile_events_tail (fs : List String) :
    ∀ (entries : List PluginEntry) (acc : List (String × PluginInfo) × List ReloadEvent),
      ∃ tail, (entries.foldl (reconcileOne fs) acc).2 = acc.2 ++ tail := by
  intro entries
  induction entries with
  | nil => exact fun acc => ⟨[], by simp⟩
  | cons e rest ih =>
    intro acc
    simp only [List.foldl_cons]
    obtain ⟨d, hd⟩ := reconcileOne_events fs acc e
    obtain ⟨tail, htail⟩ := ih (reconcileOne fs acc e)
    exact ⟨d ++ tail, by rw [htail, hd, List.append_assoc]⟩

theorem reconcileOne_table (fs : List String)
    (acc : List (String × PluginInfo) × List ReloadEvent) (e : PluginEntry) :
    (reconcileOne fs acc e).1 = acc.1 ∨
    (reconcileOne fs acc e).1 = assocSet acc.1 e.id (mkPluginInfo e fs) := by
  unfold reconcileOne
  cases assocLookup acc.1 e.id with
  | none =>
    right
    simp [loadPlugin, mkPluginInfo]
  | some existing =>
    dsimp only
    split
    · right
      simp [loadPlugin, mkPluginInfo]
    · left
      rfl

theorem reconcile_added_mem (fs : List String) :
    ∀ (entries : List PluginEntry) (acc : List (String × PluginInfo) × List ReloadEvent)
      (b : PluginEntry), b ∈ entries → (entryIds entries).Nodup →
      assocLookup acc.1 b.id = none → (mkPluginInfo b fs).enabled = true →
      ReloadEvent.added (mkPluginInfo b fs) ∈ (entries.foldl (reconcileOne fs) acc).2 := by
  intro entries
  induction entries with
  | nil => intro acc b hb; cases hb
  | cons e rest ih =>
    intro acc b hb hnodup hnone hen
    have hnd : e.id ∉ rest.map (fun p => p.id) ∧ (rest.map (fun p => p.id)).Nodup := by
      simpa [entryIds] using hnodup
    simp only [List.foldl_cons]
    rcases List.mem_cons.mp hb with rfl | hmem
    · have hstep : (reconcileOne fs acc b).2
          = acc.2 ++ [ReloadEvent.added (mkPluginInfo b fs)] := by
        unfold reconcileOne
        rw [hnone]
        simp [loadPlugin, hen]
      obtain ⟨tail, htail⟩ := reconcile_events_tail fs rest (reconcileOne fs acc b)
      rw [htail, hstep]
      simp
    · have hne : e.id ≠ b.id := by
        intro hc
        exact hnd.1 (hc ▸ List.mem_map_of_mem (fun p => p.id) hmem)
      have hnone' : assocLookup (reconcileOne fs acc e).1 b.id = none := by
        rcases reconcileOne_table fs acc e with h | h
        · rw [h]; exact hnone
        · rw [h, assocLookup_assocSet_ne _ _ _ _ hne]; exact hnone
      exact ih (reconcileOne fs acc e) b hmem (by simpa [entryIds] using hnd.2) hnone' hen

/-- The ordering property exactly as claim C4 states it: an `added` event
whose plugin id is the newly present id occurs strictly before a
`removed` event whose plugin id is the newly absent id. -/
def addedBeforeRemoved (evs : List ReloadEvent) (bId aId : String) : Prop :=
  ∃ (l1 l2 l3 : List ReloadEvent) (pb pa : PluginInfo), pb.id = bId ∧ pa.id = aId ∧
    evs = l1 ++ ReloadEvent.added pb :: (l2 ++ ReloadEvent.removed pa :: l3)

/-- The manifest entry of the C4 counterexample: newly present but
explicitly disabled. -/
def disabledEntryB : PluginEntry :=
  { id := "b", name := "B", version := some "1.0.0", entryType := some "generated-module",
    path := none, enabled := some false, metadata := none }

/-- C4 counterexample: when the newly present plugin `b` is disabled, the
reconciliation pass emits no `added` event for it at all
(`loadPlugin` only emits `plugin-loaded` for enabled plugins), so the
event sequence — here exactly `[removed a]` — contains no `added` before
the `removed`. -/
theorem handleConfigChange_claim_fails :
    ¬ (∀ (table : List (String × PluginInfo)) (fs : List String) (cfg : PluginsConfig)
         (b : PluginEntry) (aId : String) (aInfo : PluginInfo),
        b ∈ cfg.plugins → assocLookup table b.id = none →
        (aId, aInfo) ∈ table →
        (cfg.plugins.map (fun e => e.id)).contains aId = false →
        addedBeforeRemoved (handleConfigChange table fs cfg).2 b.id aId) := by
  intro h
  have hx := h [("a", samplePluginInfo)] [] { plugins := [disabledEntryB] }
    disabledEntryB "a" samplePluginInfo (by simp) (by decide) (by simp) (by decide)
  have hev : (handleConfigChange [("a", samplePluginInfo)] []
      { plugins := [disabledEntryB] }).2 = [ReloadEvent.removed samplePluginInfo] := by decide
  rw [hev] at hx
  obtain ⟨l1, l2, l3, pb, pa, -, -, heq⟩ := hx
  have hlen := congrArg List.length heq
  simp [List.length_append] at hlen
  omega

/-- C4 (amended): within one reconciliation pass in which plugin id B is
newly present with a true resolved enabled flag and plugin id A is newly
absent, and the manifest's ids are pairwise distinct, the emitted
sequence contains the `added` event for B strictly before the `removed`
event for A — additions and updates are always processed before
removals. A newly present plugin whose resolved enabled flag is false
gets no `added` event at all. -/
theorem handleConfigChange_added_before_removed
    (table : List (String × PluginInfo)) (fs : List String) (cfg : PluginsConfig)
    (b : PluginEntry) (aId : String) (aInfo : PluginInfo)
    (hb : b ∈ cfg.plugins) (hnodup : (entryIds cfg.plugins).Nodup)
    (hbnew : assocLookup table b.id = none)
    (hben : (mkPluginInfo b fs).enabled = true)
    (ha : (aId, aInfo) ∈ table)
    (hagone : (cfg.plugins.map (fun e => e.id)).contains aId = false) :
    ∃ l1 l2 l3, (handleConfigChange table fs cfg).2
      = l1 ++ ReloadEvent.added (mkPluginInfo b fs)
          :: (l2 ++ ReloadEvent.removed aInfo :: l3) := by
  have hadd : ReloadEvent.added (mkPluginInfo b fs)
      ∈ (cfg.plugins.foldl (reconcileOne fs) (table, [])).2 :=
    reconcile_added_mem fs cfg.plugins (table, []) b hb hnodup hbnew hben
  have hrem : ReloadEvent.removed aInfo
      ∈ (table.filter (fun kv => !(cfg.plugins.map (fun e => e.id)).contains kv.1)).map
          (fun kv => ReloadEvent.removed kv.2) := by
    have hnotmem : aId ∉ List.map (fun e => e.id) cfg.plugins := by simpa using hagone
    refine List.mem_map.mpr ⟨(aId, aInfo), ?_, rfl⟩
    apply List.mem_filter.mpr
    refine ⟨ha, ?_⟩
    have hforall : ∀ x ∈ cfg.plugins, ¬ x.id = aId := by
      intro x hx hc
      exact hnotmem (hc ▸ List.mem_map_of_mem (fun e => e.id) hx)
    simpa using hforall
  obtain ⟨s1, s2, h1⟩ := List.append_of_mem hadd
  obtain ⟨s3, s4, h2⟩ := List.append_of_mem hrem
  refine ⟨s1, s2 ++ s3, s4, ?_⟩
  simp only [handleConfigChange]
  rw [h1, h2]
  simp [List.append_assoc]

/-- The manifest entry of the C4 witness: newly present and enabled. -/
def enabledEntryB : PluginEntry :=
  { id := "b", name := "B", version := some "1.0.0", entryType := some "generated-module",
    path := none, enabled := some true, metadata := none }

/-- Witness for `handleConfigChange_added_before_removed` on a concrete
rename-like transition: `a` leaves the manifest while the enabled `b`
enters it. -/
theorem handleConfigChange_added_before_removed_witness :
    ∃ l1 l2 l3, (handleConfigChange [("a", samplePluginInfo)] []
        { plugins := [enabledEntryB] }).2
      = l1 ++ ReloadEvent.added (mkPluginInfo enabledEntryB [])
          :: (l2 ++ ReloadEvent.removed samplePluginInfo :: l3) :=
  handleConfigChange_added_before_removed [("a", samplePluginInfo)] []
    { plugins := [enabledEntryB] } enabledEntryB "a" samplePluginInfo
    (by simp) (by decide) (by decide) (by decide) (by simp) (by decide)

end ModernCRM
